/-
Verification of the request-routing / failsafe-fallback pipeline and the
portfolio, fraud, cache and compliance helpers of the jagent repository.

Shallow embedding conventions:
* Python floats are modelled as rationals (ℚ): the source's arithmetic is
  plain field arithmetic, so ℚ captures the intended real-number semantics.
* Python strings are Lean `String`s; `str.lower()` / `str.upper()` /
  `str.strip()` are `pyLower` / `pyUpper` / `pyStrip` (ASCII case mapping,
  which covers every string the programme manipulates).
* Fallible code is modelled with `Except` / `Option`; a Python `raise`
  observed by a caller is an `Except.error`.
* `dict`s with insertion order are association lists `List (key × value)`.
-/
import Mathlib

namespace Jagent

/-! ## String helpers shared by several modules -/

/-- Substring test: `needle` occurs contiguously inside `hay`
(Python's `needle in hay`). -/
def containsSub (hay needle : List Char) : Bool :=
  if needle.isPrefixOf hay then true
  else
    match hay with
    | [] => needle.isEmpty
    | _ :: t => containsSub t needle

/-- Substring test on `String` (Python `needle in hay`). -/
def strContains (hay needle : String) : Bool :=
  containsSub hay.data needle.data

/-- Python `str.lower()` (ASCII case mapping), character by character. -/
def pyLower (s : String) : String :=
  ⟨s.data.map Char.toLower⟩

/-- Python `str.upper()` (ASCII case mapping), character by character. -/
def pyUpper (s : String) : String :=
  ⟨s.data.map Char.toUpper⟩

/-- Python `str.strip()`: drop leading and trailing whitespace. -/
def pyStrip (s : String) : String :=
  ⟨((s.data.dropWhile Char.isWhitespace).reverse.dropWhile
      Char.isWhitespace).reverse⟩

/-! ## agent/compliance.py -/

/-- `GENERIC_DISCLAIMER` from agent/compliance.py. -/
def GENERIC_DISCLAIMER : String :=
  "This content is for informational purposes only and is not financial advice. " ++
  "No offer, solicitation, or recommendation is being made. " ++
  "Past performance does not guarantee future results. " ++
  "For personalized guidance, consult a licensed professional. " ++
  "Data sources may be delayed or inaccurate; verify independently. " ++
  "GDPR simulation: you can request deletion of your stored data with 'forget me'. " ++
  "Recommendations are hypothetical and not personalized advice under SEC rules. "

/-- `BANNED_PHRASES` from agent/compliance.py. -/
def BANNED_PHRASES : List String :=
  ["guaranteed profit", "surefire", "inside information",
   "front-run", "pump and dump", "tax evasion",
   "insider trading", "day trading strategy", "spoofing",
   "dark edge", "gray edge"]

/-- The fixed refusal message returned on a banned-phrase hit. -/
def REFUSAL_MESSAGE : String :=
  "I can’t assist with that request (compliance). If you want, I can explain legal, diversified approaches instead."

/-- The trailing sentence appended to the disclaimer on the non-banned path. -/
def FAVORITISM_NOTE : String :=
  "We avoid favoritism toward individual securities; suggestions are diversified and ETF-first where possible."

/-- True when the lower-cased text contains at least one banned phrase
(the `any(p in lower for p in BANNED_PHRASES)` test). -/
def bannedHit (text : String) : Bool :=
  BANNED_PHRASES.any (fun p => strContains (pyLower text) p)

/-- `guard_and_disclaim` from agent/compliance.py. -/
def guard_and_disclaim (text : String) (banned_only : Bool := false) : Bool × String :=
  if bannedHit text then
    (false, REFUSAL_MESSAGE)
  else if banned_only then
    (true, text)
  else
    (true, text ++ "\n\n" ++ GENERIC_DISCLAIMER ++ FAVORITISM_NOTE)

/-! ## agent/portfolio.py : risk_fit_label -/

/-- `risk_fit_label` from agent/portfolio.py.  The source guards with
`(tolerance or "")`; a `None` tolerance therefore behaves like `""` and is
modelled by passing the empty string. -/
def risk_fit_label (vol : ℚ) (tolerance : String) : String :=
  let tol := pyStrip (pyLower tolerance)
  if tol = "conservative" ∨ tol = "low" then
    if vol < 1/10 then "fit" else "too volatile"
  else if tol = "moderate" ∨ tol = "medium" then
    if vol < 2/10 then "fit" else "too volatile"
  else if tol = "aggressive" ∨ tol = "high" then
    if vol < 35/100 then "fit" else "too volatile"
  else "unknown"

/-- The threshold the source associates to each recognized tolerance class. -/
def riskThreshold (tol : String) : Option ℚ :=
  if tol = "conservative" ∨ tol = "low" then some (1/10)
  else if tol = "moderate" ∨ tol = "medium" then some (2/10)
  else if tol = "aggressive" ∨ tol = "high" then some (35/100)
  else none

/-! ## agent/cache.py -/

/-- One row of the CSV price cache. -/
structure CacheRow where
  symbol : String
  date : String
  price : ℚ
  ts : ℚ
  deriving DecidableEq, Repr

/-- `put_cached_price` from agent/cache.py: append one row holding the
upper-cased symbol, the date key, the price and the write timestamp.
The missing-file case is the empty row list; the CSV header row carries no
data and is not modelled. -/
def put_cached_price (st : List CacheRow) (symbol date : String) (price : ℚ)
    (now : ℚ) : List CacheRow :=
  st ++ [⟨pyUpper symbol, date, price, now⟩]

/-- `get_cached_price` from agent/cache.py: scan every row, keep the LAST
row whose upper-cased symbol and date match, then apply the TTL test
`now - ts > ttl → miss`. -/
def get_cached_price (st : List CacheRow) (symbol date : String)
    (now ttl : ℚ) : Option ℚ :=
  let sym := pyUpper symbol
  match (st.filter (fun r => pyUpper r.symbol = sym ∧ r.date = date)).getLast? with
  | none => none
  | some r => if now - r.ts > ttl then none else some r.price

/-! ## agent/failsafe.py : the quality gate `_looks_broken` -/

/-- Word character in the sense of the regex `\b` boundary: `[A-Za-z0-9_]`. -/
def isWordChar (c : Char) : Bool :=
  c.isAlphanum || c = '_'

/-- True when `prev` (the character just before the candidate match, `none`
at the start of the text) forms a word boundary with the word `nan`. -/
def boundaryBefore : Option Char → Bool
  | none => true
  | some c => !isWordChar c

/-- True when the text starts with `nan` followed by a word boundary. -/
def nanHere (l : List Char) : Bool :=
  ['n', 'a', 'n'].isPrefixOf l &&
    (match l.drop 3 with
     | [] => true
     | c :: _ => !isWordChar c)

/-- Scan for the regex `\bnan\b`, carrying the previous character. -/
def nanScan (prev : Option Char) : List Char → Bool
  | [] => false
  | l@(c :: t) => (boundaryBefore prev && nanHere l) || nanScan (some c) t

/-- `re.search(r"\bnan\b", text)` as a Boolean. -/
def matchesNanWord (l : List Char) : Bool :=
  nanScan none l

/-- After the literal `invalid`, the regex ` +json` requires at least one
space and then `json`; the space block is forced to be maximal because
`json` does not start with a space. -/
def invalidJsonAfter (l : List Char) : Bool :=
  match l with
  | ' ' :: _ => ['j', 's', 'o', 'n'].isPrefixOf (l.dropWhile (· = ' '))
  | _ => false

/-- `re.search(r"invalid +json", text)` as a Boolean. -/
def matchesInvalidJson : List Char → Bool
  | [] => false
  | l@(_ :: t) =>
    ("invalid".data.isPrefixOf l && invalidJsonAfter (l.drop 7)) ||
      matchesInvalidJson t

/-- After the literal `yfinance`, the regex `.*failed` allows any gap not
containing a newline (Python's `.` does not match `\n`) before `failed`. -/
def yfFailedAfter : List Char → Bool
  | [] => false
  | l@(c :: t) =>
    "failed".data.isPrefixOf l || (c ≠ '\n' && yfFailedAfter t)

/-- `re.search(r"yfinance.*failed", text)` as a Boolean. -/
def matchesYfFailed : List Char → Bool
  | [] => false
  | l@(_ :: t) =>
    ("yfinance".data.isPrefixOf l && yfFailedAfter (l.drop 8)) ||
      matchesYfFailed t

/-- The `_BAD_PATTERNS` denylist of agent/failsafe.py, applied to the
lower-cased output text. -/
def matchesBadPatterns (l : List Char) : Bool :=
  matchesNanWord l ||
  containsSub l "could not parse".data ||
  matchesInvalidJson l ||
  containsSub l "unavailable".data ||
  containsSub l "no price data found".data ||
  matchesYfFailed l ||
  containsSub l "request timed out".data ||
  containsSub l "error:".data ||
  containsSub l "exception".data

/-- The known-good marker phrase used by the quality-gate exemption. -/
def MARKER : String := "expected annual return:"

/-- `_looks_broken` from agent/failsafe.py.  `strict` is the
`FAILSAFE_STRICT` module flag (environment-derived, default `true`). -/
def looks_broken (strict : Bool) (output : String) : Bool :=
  if !strict then false
  else if output = "" then true
  else
    let text := pyLower output
    if strContains text MARKER && !strContains text "nan" then false
    else if matchesBadPatterns text.data then true
    else if strContains text MARKER && strContains text "nan" then true
    else false

/-- The seven denylist patterns named by the specification ("nan",
"could not parse", "unavailable", "no price data found", "request timed
out", "exception", "error:"), matched with the source's pattern
semantics (`nan` with word boundaries, the rest as substrings) against
the lower-cased text. -/
def claimedDenylist (text : String) : Bool :=
  matchesNanWord text.data ||
  containsSub text.data "could not parse".data ||
  containsSub text.data "unavailable".data ||
  containsSub text.data "no price data found".data ||
  containsSub text.data "request timed out".data ||
  containsSub text.data "exception".data ||
  containsSub text.data "error:".data

/-! ## agent/failsafe.py : `run_with_failsafe` -/

/-- Outcome of calling one zero-argument handler: it either raises or
returns a string (non-string returns are `str()`-converted by the source,
so a string models the observed value). -/
inductive HandlerRes where
  | raises : HandlerRes
  | returns : String → HandlerRes
  deriving DecidableEq, Repr

/-- A handler counts as failed when it raises or when its output fails the
quality gate (the source turns a gate failure into a caught
`RuntimeError`). -/
def handlerFails (strict : Bool) : HandlerRes → Bool
  | .raises => true
  | .returns s => looks_broken strict s

/-- The string a non-failing handler produced. -/
def handlerOut : HandlerRes → String
  | .raises => ""
  | .returns s => s

/-- `run_and_comply` from agent/agent.py: invoke the chat capability and
swallow any exception into the fixed apology string. -/
def run_and_comply (chat : String → Except Unit String) (prompt : String) : String :=
  match chat prompt with
  | .ok s => s
  | .error _ => "Sorry — something went wrong while processing that."

/-- `run_with_failsafe` from agent/failsafe.py, instrumented with the
invocation log: the returned answer, the zero-based indices of the
handlers invoked (in invocation order), and the number of fallback-chat
invocations.  A failing head handler contributes index `0` and shifts
the tail's indices by one. -/
def run_with_failsafe (strict : Bool) (question : String)
    (chat : String → Except Unit String) :
    List HandlerRes → String × List Nat × Nat
  | [] => (run_and_comply chat question, [], 1)
  | h :: t =>
    if handlerFails strict h then
      let r := run_with_failsafe strict question chat t
      (r.1, 0 :: r.2.1.map (· + 1), r.2.2)
    else (handlerOut h, [0], 0)

/-! ## agent/fraud.py -/

/-- `zscore_flag` from agent/fraud.py.  The source computes
`sd = (Σ (x - mu)² / n) ** 0.5 or 1.0` and flags when
`abs((amount - mu) / sd) > 3`; the `or 1.0` replaces `sd` by `1.0`
exactly when the variance is `0`.  Over the rationals the comparison
`|amount - mu| / sqrt v > 3` (for `v ≠ 0`) is stated in the equivalent
squared form `(amount - mu)² > 9 * v`, avoiding the irrational square
root while deciding exactly the same predicate. -/
def zscore_flag (amount : ℚ) (history : List ℚ) : Bool :=
  if history = [] ∨ history.length < 5 then false
  else
    let n : ℚ := history.length
    let mu := history.sum / n
    let v := (history.map (fun x => (x - mu) ^ 2)).sum / n
    if v = 0 then |amount - mu| > 3 else (amount - mu) ^ 2 > 9 * v

/-- A transaction record as consumed by `simple_fraud_check` (the JSON
fields the source reads). -/
structure Tx where
  amount : Option ℚ
  counterparty : Option String
  hour : Option Int
  time : Option String
  deriving Repr

/-- `_parse_hour` from agent/fraud.py: prefer the integer `hour` field,
else the leading `HH` of a `time`/`timestamp` string containing `:`,
else `-1`.  (Python's `int(...)` of the split prefix is modelled with
`String.toInt?` on the trimmed prefix.) -/
def parse_hour (tx : Tx) : Int :=
  match tx.hour with
  | some h => h
  | none =>
    match tx.time with
    | some t =>
      if t.contains ':' then
        (pyStrip ((t.splitOn ":").headD "")).toInt?.getD (-1)
      else -1
    | none => -1

/-- Screening policy: the `odd_hours` set and the large-amount
threshold. -/
structure FraudPolicy where
  odd_hours : List Int
  large_amount_threshold : ℚ
  deriving Repr

/-- The source's default policy: odd hours `{0..4}`, threshold `5000`. -/
def defaultPolicy : FraudPolicy := ⟨[0, 1, 2, 3, 4], 5000⟩

/-- Python truthiness of the optional history mapping: present and
non-empty. -/
def mappingTruthy (m : Option (List (String × List ℚ))) : Bool :=
  match m with
  | none => false
  | some l => !l.isEmpty

/-- `history_by_cp.get(cp) or []`. -/
def historyFor (m : Option (List (String × List ℚ))) (cp : String) : List ℚ :=
  match m with
  | none => []
  | some l => ((l.lookup cp).getD [])

/-- `simple_fraud_check` from agent/fraud.py: evaluates the four rules in
source order and returns `(flags ≠ [], flags)`.  `known` is `None` or the
known-counterparty set (listed); `hist` is the optional per-counterparty
history mapping. -/
def simple_fraud_check (tx : Tx) (known : Option (List String))
    (policy : FraudPolicy) (hist : Option (List (String × List ℚ))) :
    Bool × List String :=
  let amt := tx.amount.getD 0
  let cp := pyStrip (tx.counterparty.getD "")
  let hour := parse_hour tx
  let flags :=
    (if hour ∈ policy.odd_hours then ["odd-hour"] else []) ++
    (if known ≠ none ∧ cp ≠ "" ∧ cp ∉ known.getD [] then ["unknown-counterparty"] else []) ++
    (if policy.large_amount_threshold ≤ amt then ["large-amount"] else []) ++
    (if mappingTruthy hist ∧ cp ≠ "" ∧ zscore_flag amt (historyFor hist cp) then
      ["amount-anomaly"] else [])
  (!flags.isEmpty, flags)

/-- Modelled from the claim's words (for the refinement comparison only):
the amount-anomaly condition with the historical standard deviation
*floored at* `1.0`, i.e. `sd = max (sqrt v) 1`, so the flag condition is
`|amount - mu| > 3 * max (sqrt v) 1`; in squared form: when `v ≤ 1` the
floor is `1` and the test is `|amount - mu| > 3`, otherwise the test is
`(amount - mu)² > 9 * v`. -/
def zscore_flag_floored (amount : ℚ) (history : List ℚ) : Bool :=
  if history.length < 5 then false
  else
    let n : ℚ := history.length
    let mu := history.sum / n
    let v := (history.map (fun x => (x - mu) ^ 2)).sum / n
    if v ≤ 1 then |amount - mu| > 3 else (amount - mu) ^ 2 > 9 * v

/-- The z-score exceedance condition of `zscore_flag` spelled out as a
proposition: with `mu` the mean and `v` the population variance of the
history, the source flags when `|amount - mu| / sd > 3` for
`sd = sqrt v` replaced by `1.0` when `v = 0` — equivalently
`|amount - mu| > 3` when `v = 0` and `(amount - mu)² > 9·v` otherwise. -/
def zscoreExceeds (amount : ℚ) (history : List ℚ) : Prop :=
  let n : ℚ := history.length
  let mu := history.sum / n
  let v := (history.map (fun x => (x - mu) ^ 2)).sum / n
  if v = 0 then |amount - mu| > 3 else (amount - mu) ^ 2 > 9 * v

/-! ## The allocation scanners of agent/portfolio.py and jagent.py

Both `parse_percent_alloc` and `_alloc_only` run a `re.findall` with the
shape `(\d+(?:\.\d+)?)\s*%\s*(SYMBOL)`; they differ only in the symbol
class.  `re.findall` scans left to right, matching at the earliest
possible position and continuing after each match; for this pattern the
greedy sub-matches are forced (each quantified block is followed by a
character it can never contain), so a deterministic maximal-munch scanner
is an exact model. -/

/-- Character class configuration for the symbol capture group. -/
structure ScanCfg where
  first : Char → Bool
  rest : Char → Bool
  minRest : Nat

/-- The trailing symbol characters `[A-Za-z0-9.\-_]`. -/
def symRestChar (c : Char) : Bool :=
  c.isAlphanum || c = '.' || c = '-' || c = '_'

/-- Symbol class of `parse_percent_alloc`:
`[A-Za-z0-9][A-Za-z0-9.\-_]*`. -/
def cfgPercent : ScanCfg := ⟨Char.isAlphanum, symRestChar, 0⟩

/-- Symbol class of `_alloc_only` (jagent.py):
`[A-Za-z][A-Za-z0-9.\-_]+`. -/
def cfgAllocOnly : ScanCfg := ⟨Char.isAlpha, symRestChar, 1⟩

/-- Try the whole pattern at the head of `l`; on success return the
captured numeral text, the captured symbol text and the rest of the
input. -/
def matchPairAt (cfg : ScanCfg) (l : List Char) :
    Option ((List Char × List Char) × List Char) :=
  let ds := l.takeWhile Char.isDigit
  let r1 := l.dropWhile Char.isDigit
  if ds.isEmpty then none
  else
    let numRest : List Char × List Char :=
      match r1 with
      | '.' :: rr =>
        let fs := rr.takeWhile Char.isDigit
        if fs.isEmpty then (ds, r1)
        else (ds ++ '.' :: fs, rr.dropWhile Char.isDigit)
      | _ => (ds, r1)
    let r2 := numRest.2.dropWhile Char.isWhitespace
    match r2 with
    | '%' :: r3 =>
      let r4 := r3.dropWhile Char.isWhitespace
      match r4 with
      | c :: t =>
        if cfg.first c then
          let rs := t.takeWhile cfg.rest
          if cfg.minRest ≤ rs.length then
            some ((numRest.1, c :: rs), t.dropWhile cfg.rest)
          else none
        else none
      | [] => none
    | _ => none

/-- `re.findall` loop.  The fuel argument starts at the input length; a
successful match always consumes at least one character (the numeral is
non-empty) and a failed position advances by one character, so the fuel
never runs out before the input does. -/
def scanPairsGo (cfg : ScanCfg) : Nat → List Char → List (List Char × List Char)
  | 0, _ => []
  | _ + 1, [] => []
  | fuel + 1, l@(_ :: t) =>
    match matchPairAt cfg l with
    | some (p, rest) => p :: scanPairsGo cfg fuel rest
    | none => scanPairsGo cfg fuel t

/-- All `(numeral, symbol)` captures of the pattern in `s`. -/
def scanPairs (cfg : ScanCfg) (s : String) : List (List Char × List Char) :=
  scanPairsGo cfg s.data.length s.data

/-- Numeric value of a digit string. -/
def natOfDigits (l : List Char) : Nat :=
  l.foldl (fun a c => 10 * a + (c.toNat - 48)) 0

/-- `float(pct_str)` for the numeral texts the scanner produces
(`digits` or `digits.digits`). -/
def qOfNumText (l : List Char) : ℚ :=
  match l.splitOn '.' with
  | [i] => natOfDigits i
  | [i, f] => (natOfDigits i : ℚ) + (natOfDigits f : ℚ) / (10 ^ f.length)
  | _ => 0

/-! ## agent/portfolio.py : parse_percent_alloc -/

/-- `re.sub(r'[^A-Za-z0-9]', '', sym).upper()`. -/
def symClean (sym : List Char) : String :=
  String.mk ((sym.filter Char.isAlphanum).map Char.toUpper)

/-- `out[sym] = out.get(sym, 0.0) + w` on an insertion-ordered dict. -/
def updAdd : List (String × ℚ) → String → ℚ → List (String × ℚ)
  | [], k, w => [(k, w)]
  | (k', v) :: t, k, w =>
    if k' = k then (k', v + w) :: t else (k', v) :: updAdd t k w

/-- The scanned pairs of `parse_percent_alloc` with the numeral turned
into the weight `pct/100` and the symbol cleaned. -/
def cleanedPairs (s : String) : List (ℚ × String) :=
  (scanPairs cfgPercent s).map (fun p => (qOfNumText p.1 / 100, symClean p.2))

/-- One step of the accumulation loop of `parse_percent_alloc`: skip a
symbol that cleans to the empty string, otherwise
`out[sym] = out.get(sym, 0.0) + w`. -/
def allocStep (m : List (String × ℚ)) (p : ℚ × String) : List (String × ℚ) :=
  if p.2 = "" then m else updAdd m p.2 p.1

/-- The accumulation loop of `parse_percent_alloc`. -/
def accumAlloc (s : String) : List (String × ℚ) :=
  (cleanedPairs s).foldl allocStep []

/-- `normalize_allocations` from agent/portfolio.py. -/
def normalize_allocations (alloc : List (String × ℚ)) :
    Except String (List (String × ℚ)) :=
  let total := (alloc.map Prod.snd).sum
  if total ≤ 0 then .error "Allocation weights must sum to > 0"
  else .ok (alloc.map (fun kv => (kv.1, kv.2 / total)))

/-- `parse_percent_alloc` from agent/portfolio.py. -/
def parse_percent_alloc (s : String) : Except String (List (String × ℚ)) :=
  let out := accumAlloc s
  if out.isEmpty then .error "Could not parse any allocations."
  else normalize_allocations out

/-- Weight lookup in an insertion-ordered dict, `0` when absent. -/
def lookupQ : List (String × ℚ) → String → ℚ
  | [], _ => 0
  | (k', v) :: t, k => if k' = k then v else lookupQ t k

/-- Total scanned weight contributed to symbol `k` by the input `s`
(the sum over every `NN% SYM` occurrence whose cleaned symbol is `k`). -/
def contribWeight (s : String) (k : String) : ℚ :=
  (((cleanedPairs s).filter (fun p => p.2 = k)).map Prod.fst).sum

/-- Total scanned weight of `s` over all non-empty cleaned symbols. -/
def totalWeight (s : String) : ℚ :=
  (((cleanedPairs s).filter (fun p => p.2 ≠ "")).map Prod.fst).sum

/-! ## jagent.py : the `_alloc_only` pre-cleaner of the analyze route -/

/-- Python `str.rstrip(chars)`: drop trailing characters drawn from
`set`. -/
def rstripSet (s : String) (set : List Char) : String :=
  String.mk ((s.data.reverse.dropWhile (· ∈ set)).reverse)

/-- The `STOP` word set of `_alloc_only`. -/
def STOP_WORDS : List String := ["IN", "OF", "TO", "INTO", "ON", "AT"]

/-- The `ALIAS` table of `_alloc_only`. -/
def ALIAS_TABLE : List (String × String) :=
  [("BONDS", "BND"), ("BOND", "BND"), ("FIXEDINCOME", "BND"), ("APPL", "AAPL")]

/-- `_alloc_only` from jagent.py: re-scan the text for `NN% SYMBOL`
pairs, upper-case and right-strip each symbol, drop stop words, apply the
alias table and re-join as `"pct% SYM, ..."`. -/
def alloc_only (s : String) : String :=
  let pairs := scanPairs cfgAllocOnly s
  if pairs.isEmpty then ""
  else
    let cleaned := pairs.filterMap (fun p =>
      let s1 := rstripSet (pyUpper (pyStrip (String.mk p.2))) ['.', ',', ';', ':', ')']
      if s1 ∈ STOP_WORDS then none
      else some (String.mk p.1 ++ "% " ++ ((ALIAS_TABLE.lookup s1).getD s1)))
    String.intercalate ", " cleaned

/-! ## agent/tools.py : the price resolution chain `get_latest_price`

The external world visible to one `get_latest_price(symbol)` call is the
outcome of each collaborator: the cache read for `(symbol, today)` (which
the source wraps in `try/except`), the Alpha Vantage credential and quote,
and the two yfinance frames.  `alpha_vantage_price` catches its own
exceptions and returns `(None, tag)`, so its outcome is an optional
price; on success its tag is the constant `"alpha_vantage"`. -/
structure PriceEnv where
  /-- Outcome of `get_cached_price(sy, today)`: a raised exception or an
  optional cached price. -/
  cacheRead : Except Unit (Option ℚ)
  /-- `os.getenv("ALPHAVANTAGE_API_KEY")`, with `""` for unset (both are
  falsy in the source's `if api_key:`). -/
  alphaKey : String
  /-- Price from `alpha_vantage_price` (`none` covers `no_price` and
  `error`). -/
  alphaPrice : Option ℚ
  /-- Whether the yfinance calls raise. -/
  yfRaises : Bool
  /-- Last intraday close, if the 1-minute frame is non-empty. -/
  yfIntraday : Option ℚ
  /-- Last daily close, if the 5-day frame is non-empty. -/
  yfDaily : Option ℚ

/-- `_latest_price_yf` from agent/tools.py: intraday close, else last
daily close, else `(None, "yfinance:unavailable")`; any exception yields
`(None, "yfinance:error")`. -/
def latest_price_yf (env : PriceEnv) : Option ℚ × String :=
  if env.yfRaises then (none, "yfinance:error")
  else
    match env.yfIntraday with
    | some p => (some p, "yfinance (intraday)")
    | none =>
      match env.yfDaily with
      | some p => (some p, "yfinance:last_close")
      | none => (none, "yfinance:unavailable")

/-- Which collaborators a `get_latest_price` call touched. -/
inductive PriceCall where
  | cache : PriceCall
  | alpha : PriceCall
  | yf : PriceCall
  deriving DecidableEq, Repr

/-- `get_latest_price` from agent/tools.py, instrumented with the calls
made and the prices written back to the cache (cache writes are wrapped
in `try/except` by the source, so a failing write changes nothing
observable; the log records the attempted write). -/
def get_latest_price (env : PriceEnv) :
    (Option ℚ × String) × List PriceCall × List ℚ :=
  match env.cacheRead with
  | .ok (some p) => ((some p, "cache:today"), [.cache], [])
  | _ =>
    if env.alphaKey ≠ "" then
      match env.alphaPrice with
      | some p => ((some p, "alpha_vantage"), [.cache, .alpha], [p])
      | none =>
        let r := latest_price_yf env
        ((r.1, r.2), [.cache, .alpha, .yf],
          match r.1 with | some q => [q] | none => [])
    else
      let r := latest_price_yf env
      ((r.1, r.2), [.cache, .yf],
        match r.1 with | some q => [q] | none => [])

/-- The cache attempt missed: no price came back (a read exception or an
absent/expired entry). -/
def cacheMiss (env : PriceEnv) : Prop :=
  ∀ p : ℚ, env.cacheRead ≠ .ok (some p)

instance (env : PriceEnv) : Decidable (cacheMiss env) := by
  unfold cacheMiss
  match h : env.cacheRead with
  | .ok (some p) => exact .isFalse (fun hc => hc p rfl)
  | .ok none => exact .isTrue (fun p hc => by simp [h] at hc)
  | .error e => exact .isTrue (fun p hc => by simp [h] at hc)

/-! ## agent/agent.py : `AgentWithMemory.invoke`

The LangChain executor (which is the only path to both the deterministic
tools and the language model) is abstracted as an oracle from the user
message to a raised exception or an answer string.  The conversation
memory does not influence the returned output and is omitted. -/

/-- `AgentWithMemory.invoke`, instrumented with whether the executor (and
hence any tool or language-model call) was invoked. -/
def agent_invoke (exec : String → Except Unit String) (user_msg : String) :
    String × Bool :=
  let g := guard_and_disclaim user_msg true
  if !g.1 then (g.2, false)
  else
    let ai_msg :=
      match exec user_msg with
      | .ok r => r
      | .error _ =>
        "Sorry — something went wrong while processing that. Try rephrasing or a simpler request."
    ((guard_and_disclaim ai_msg).2, true)

/-! # Theorems -/

/-! ## Helper lemmas -/

theorem char_toUpper_idem (c : Char) : c.toUpper.toUpper = c.toUpper := by
  have key : ∀ d : Char, ¬(97 ≤ d.toNat ∧ d.toNat ≤ 122) → d.toUpper = d := by
    intro d hd
    simp only [Char.toUpper]
    rw [if_neg (by exact_mod_cast hd)]
  by_cases h : 97 ≤ c.toNat ∧ c.toNat ≤ 122
  · have h2 : c.toUpper = Char.ofNat (c.toNat - 32) := by
      simp only [Char.toUpper]
      rw [if_pos (by exact_mod_cast h)]
    have hval : (c.toNat - 32).isValidChar := Or.inl (by omega)
    have ht : (Char.ofNat (c.toNat - 32)).toNat = c.toNat - 32 := by
      rw [Char.ofNat, dif_pos hval]; rfl
    rw [h2]
    apply key
    rw [ht]
    omega
  · rw [key c h, key c h]

theorem pyUpper_idem (s : String) : pyUpper (pyUpper s) = pyUpper s := by
  simp only [pyUpper, List.map_map]
  exact congrArg String.mk (List.map_congr_left fun c _ => char_toUpper_idem c)

/-! ## Claim C7 : banned input short-circuits before any tool/LLM call -/

/-- Claim C7: for every user input whose text contains a banned-content
phrase, `AgentWithMemory.invoke` returns the fixed refusal message and
the executor — the only path to the deterministic tools and the
language-model capability — is never invoked. -/
theorem banned_input_short_circuits
    (exec : String → Except Unit String) (msg : String)
    (h : bannedHit msg = true) :
    agent_invoke exec msg = (REFUSAL_MESSAGE, false) := by
  unfold agent_invoke guard_and_disclaim
  simp [h]

/-- Witness for C7 at a concrete banned input and a concrete executor. -/
theorem banned_input_short_circuits_witness :
    agent_invoke (fun s => .ok s) "tell me about insider trading" =
      (REFUSAL_MESSAGE, false) :=
  banned_input_short_circuits (fun s => .ok s) "tell me about insider trading"
    (by decide)

/-! ## Claim C10 : the rejection output is input-independent -/

/-- Claim C10: any two inputs containing a banned phrase
(case-insensitively) receive the identical fixed refusal from
`guard_and_disclaim`, on either the input (`banned_only`) or output
side; nothing of the rejected input is echoed back. -/
theorem rejection_output_uniform
    (s₁ s₂ : String) (b₁ b₂ : Bool)
    (h₁ : bannedHit s₁ = true) (h₂ : bannedHit s₂ = true) :
    guard_and_disclaim s₁ b₁ = guard_and_disclaim s₂ b₂ ∧
    guard_and_disclaim s₁ b₁ = (false, REFUSAL_MESSAGE) := by
  unfold guard_and_disclaim
  simp [h₁, h₂]

/-- Witness for C10 at two concrete banned inputs. -/
theorem rejection_output_uniform_witness :
    guard_and_disclaim "SPOOFING please" true =
      guard_and_disclaim "any pump and dump tips?" false ∧
    guard_and_disclaim "SPOOFING please" true = (false, REFUSAL_MESSAGE) :=
  rejection_output_uniform "SPOOFING please" "any pump and dump tips?" true false
    (by decide) (by decide)

/-! ## Claim C8 : risk-fit thresholds are strict -/

/-- Claim C8: for every volatility and recognized tolerance string,
`risk_fit_label` returns "fit" iff the volatility is strictly below the
tolerance's threshold (0.10 conservative/low, 0.20 moderate/medium,
0.35 aggressive/high) and "too volatile" otherwise — equality with the
threshold yields "too volatile" — and every unrecognized tolerance
yields "unknown". -/
theorem risk_fit_label_thresholds (vol : ℚ) (tolerance : String) :
    (∀ thr, riskThreshold (pyStrip (pyLower tolerance)) = some thr →
      ((risk_fit_label vol tolerance = "fit" ↔ vol < thr) ∧
       (risk_fit_label vol tolerance = "too volatile" ↔ ¬ vol < thr))) ∧
    (riskThreshold (pyStrip (pyLower tolerance)) = none →
      risk_fit_label vol tolerance = "unknown") := by
  unfold risk_fit_label riskThreshold
  by_cases h1 : pyStrip (pyLower tolerance) = "conservative" ∨ pyStrip (pyLower tolerance) = "low"
  · by_cases hv : vol < 1/10 <;> simp [h1, hv]
  · by_cases h2 : pyStrip (pyLower tolerance) = "moderate" ∨ pyStrip (pyLower tolerance) = "medium"
    · by_cases hv : vol < 2/10 <;> (simp [h1, h2, hv]; try linarith)
    · by_cases h3 : pyStrip (pyLower tolerance) = "aggressive" ∨ pyStrip (pyLower tolerance) = "high"
      · by_cases hv : vol < 35/100 <;> (simp [h1, h2, h3, hv]; try linarith)
      · simp [h1, h2, h3]

/-- Witness for C8: the conservative boundary volatility 0.10 is "too
volatile", and an unrecognized tolerance is "unknown". -/
theorem risk_fit_label_thresholds_witness :
    risk_fit_label (1/10) "conservative" = "too volatile" ∧
    risk_fit_label (1/10) "spicy" = "unknown" :=
  ⟨((risk_fit_label_thresholds (1/10) "conservative").1 (1/10) rfl).2.mpr
      (by norm_num),
   (risk_fit_label_thresholds (1/10) "spicy").2 rfl⟩

/-! ## Claim C9 : cache round-trip and last-write-wins -/

/-- Claim C9: a price written by `put_cached_price` is returned by a
`get_cached_price` within the TTL window (purely from the cache state —
the read consults no provider), and with duplicate rows for the same
`(symbol, date)` key the read returns the most recently written row. -/
theorem cache_roundtrip_last_write_wins
    (st : List CacheRow) (sym date : String) (p t now ttl : ℚ)
    (h : now - t ≤ ttl) :
    get_cached_price (put_cached_price st sym date p t) sym date now ttl = some p ∧
    (∀ p₂ t₂, now - t₂ ≤ ttl →
      get_cached_price
        (put_cached_price (put_cached_price st sym date p t) sym date p₂ t₂)
        sym date now ttl = some p₂) := by
  have key : ∀ (st' : List CacheRow) (p' t' : ℚ), now - t' ≤ ttl →
      get_cached_price (put_cached_price st' sym date p' t') sym date now ttl =
        some p' := by
    intro st' p' t' h'
    simp only [get_cached_price, put_cached_price]
    rw [List.filter_append]
    have hrow : (List.filter
        (fun r => decide (pyUpper r.symbol = pyUpper sym ∧ r.date = date))
        [⟨pyUpper sym, date, p', t'⟩] : List CacheRow) =
        [⟨pyUpper sym, date, p', t'⟩] := by
      simp [pyUpper_idem]
    rw [hrow, List.getLast?_concat]
    simp only
    rw [if_neg (by simpa using h')]
  exact ⟨key st p t h, fun p₂ t₂ h₂ => key (put_cached_price st sym date p t) p₂ t₂ h₂⟩

/-- Witness for C9 on a concrete cache state. -/
theorem cache_roundtrip_last_write_wins_witness :
    get_cached_price (put_cached_price [] "nvda" "2026-01-02" 10 0) "nvda"
      "2026-01-02" 1 3600 = some 10 ∧
    get_cached_price
      (put_cached_price (put_cached_price [] "nvda" "2026-01-02" 10 0) "nvda"
        "2026-01-02" 11 1) "nvda" "2026-01-02" 1 3600 = some 11 :=
  ⟨(cache_roundtrip_last_write_wins [] "nvda" "2026-01-02" 10 0 1 3600
      (by norm_num)).1,
   (cache_roundtrip_last_write_wins [] "nvda" "2026-01-02" 10 0 1 3600
      (by norm_num)).2 11 1 (by norm_num)⟩

/-! ## Claim C3 : the strict-mode quality gate -/

/-- Claim C3: under strict mode the quality gate classifies an output as
broken if it is empty or matches one of the specification's seven
denylist patterns (unless exempted); and every output containing the
known-good marker phrase and not containing "nan" is never classified
as broken, regardless of which denylist patterns it matches. -/
theorem looks_broken_denylist (s : String) :
    (strContains (pyLower s) MARKER = true →
     strContains (pyLower s) "nan" = false →
      looks_broken true s = false) ∧
    ((s = "" ∨ claimedDenylist (pyLower s) = true) →
      ¬(strContains (pyLower s) MARKER = true ∧
        strContains (pyLower s) "nan" = false) →
      looks_broken true s = true) := by
  constructor
  · intro hm hn
    have he : s ≠ "" := by
      rintro rfl
      revert hm
      decide
    simp [looks_broken, he, hm, hn]
  · intro hd hne
    by_cases he : s = ""
    · subst he
      decide
    · have hden : claimedDenylist (pyLower s) = true := hd.resolve_left he
      have hbad : matchesBadPatterns (pyLower s).data = true := by
        revert hden
        unfold claimedDenylist matchesBadPatterns
        simp only [Bool.or_eq_true]
        tauto
      by_cases hA : strContains (pyLower s) MARKER = true
      · have hB : strContains (pyLower s) "nan" = true := by
          cases hnan : strContains (pyLower s) "nan" with
          | false => exact absurd ⟨hA, hnan⟩ hne
          | true => rfl
        simp [looks_broken, he, hA, hB, hbad]
      · have hA2 : strContains (pyLower s) MARKER = false :=
          Bool.eq_false_iff.mpr hA
        simp [looks_broken, he, hA2, hbad]

/-- Witness for C3: a marker-bearing output mentioning "unavailable" is
exempted; a plain "error:" output is broken. -/
theorem looks_broken_denylist_witness :
    looks_broken true "Expected annual return: 5.00% (price unavailable today)" = false ∧
    looks_broken true "price error: boom" = true :=
  ⟨(looks_broken_denylist "Expected annual return: 5.00% (price unavailable today)").1
      (by decide) (by decide),
   (looks_broken_denylist "price error: boom").2 (Or.inr (by decide)) (by decide)⟩

/-! ## Claim C1 : failsafe executor ordering and fallback -/

theorem run_with_failsafe_nil (strict : Bool) (q : String)
    (chat : String → Except Unit String) :
    run_with_failsafe strict q chat [] = (run_and_comply chat q, [], 1) := rfl

theorem run_with_failsafe_cons (strict : Bool) (q : String)
    (chat : String → Except Unit String) (h : HandlerRes) (t : List HandlerRes) :
    run_with_failsafe strict q chat (h :: t) =
      if handlerFails strict h then
        ((run_with_failsafe strict q chat t).1,
         0 :: (run_with_failsafe strict q chat t).2.1.map (· + 1),
         (run_with_failsafe strict q chat t).2.2)
      else (handlerOut h, [0], 0) := by
  rw [run_with_failsafe]

theorem range_shift_cons (n : Nat) :
    0 :: (List.range n).map (· + 1) = List.range (n + 1) := by
  rw [List.range_succ_eq_map]

theorem run_with_failsafe_all_fail (strict : Bool) (q : String)
    (chat : String → Except Unit String) :
    ∀ hs : List HandlerRes,
      (∀ h ∈ hs, handlerFails strict h = true) →
      run_with_failsafe strict q chat hs =
        (run_and_comply chat q, List.range hs.length, 1) := by
  intro hs
  induction hs with
  | nil => intro _; rfl
  | cons h t ih =>
    intro hall
    have hh : handlerFails strict h = true := hall h (by simp)
    have ht : ∀ x ∈ t, handlerFails strict x = true :=
      fun x hx => hall x (by simp [hx])
    rw [run_with_failsafe_cons, if_pos hh, ih ht]
    simp only [List.length_cons, range_shift_cons]

theorem run_with_failsafe_first_pass (strict : Bool) (q : String)
    (chat : String → Except Unit String) :
    ∀ (pre : List HandlerRes) (s : String) (rest : List HandlerRes),
      (∀ h ∈ pre, handlerFails strict h = true) →
      handlerFails strict (.returns s) = false →
      run_with_failsafe strict q chat (pre ++ .returns s :: rest) =
        (s, List.range (pre.length + 1), 0) := by
  intro pre
  induction pre with
  | nil =>
    intro s rest _ hpass
    rw [List.nil_append, run_with_failsafe_cons, if_neg (by simp [hpass])]
    rfl
  | cons h t ih =>
    intro s rest hall hpass
    have hh : handlerFails strict h = true := hall h (by simp)
    rw [List.cons_append, run_with_failsafe_cons, if_pos hh,
      ih s rest (fun x hx => hall x (by simp [hx])) hpass]
    simp only [List.length_cons, range_shift_cons]

/-- Claim C1: the failsafe executor tries the handlers strictly in order
(the invocation log is exactly `0, 1, …`, each handler at most once),
treats a raising handler or a gate-failing output as failed and moves
on, invokes the fallback chat capability exactly once with the original
question when every handler fails (returning its text, with no
exception escaping), and returns the first gate-passing handler output
unchanged with no chat invocation. -/
theorem run_with_failsafe_order_and_fallback (strict : Bool) (q : String)
    (chat : String → Except Unit String) :
    (∀ hs : List HandlerRes,
      (∀ h ∈ hs, handlerFails strict h = true) →
      ∀ ans, chat q = .ok ans →
        run_with_failsafe strict q chat hs = (ans, List.range hs.length, 1)) ∧
    (∀ (pre : List HandlerRes) (s : String) (rest : List HandlerRes),
      (∀ h ∈ pre, handlerFails strict h = true) →
      handlerFails strict (.returns s) = false →
      run_with_failsafe strict q chat (pre ++ .returns s :: rest) =
        (s, List.range (pre.length + 1), 0)) := by
  constructor
  · intro hs hall ans hok
    rw [run_with_failsafe_all_fail strict q chat hs hall]
    simp [run_and_comply, hok]
  · intro pre s rest hall hpass
    exact run_with_failsafe_first_pass strict q chat pre s rest hall hpass

/-- Witness for C1: a raising handler followed by a denylisted output
falls back to chat exactly once; a passing second handler is returned
unchanged with no chat call. -/
theorem run_with_failsafe_order_and_fallback_witness :
    run_with_failsafe true "q" (fun s => .ok (s ++ "!"))
        [HandlerRes.raises, HandlerRes.returns "price error: boom"] =
      ("q!", List.range 2, 1) ∧
    run_with_failsafe true "q" (fun s => .ok (s ++ "!"))
        [HandlerRes.raises, HandlerRes.returns "all good here"] =
      ("all good here", List.range 2, 0) :=
  ⟨(run_with_failsafe_order_and_fallback true "q" (fun s => .ok (s ++ "!"))).1
      [HandlerRes.raises, HandlerRes.returns "price error: boom"] (by decide)
      "q!" rfl,
   (run_with_failsafe_order_and_fallback true "q" (fun s => .ok (s ++ "!"))).2
      [HandlerRes.raises] "all good here" [] (by decide) (by decide)⟩

/-! ## Claims C5 and C6 : fraud screener flags -/

theorem mem_ite_singleton {α : Type} (a x : α) (c : Prop) [Decidable c] :
    a ∈ (if c then [x] else []) ↔ c ∧ a = x := by
  split
  · simp [*]
  · simp [*]

theorem historyFor_truthy {hist : Option (List (String × List ℚ))} {cp : String}
    (h : historyFor hist cp ≠ []) : mappingTruthy hist = true := by
  cases hist with
  | none => exact absurd rfl h
  | some l =>
    cases l with
    | nil => exact absurd rfl h
    | cons a t => simp [mappingTruthy]

theorem zscore_flag_iff (amount : ℚ) (history : List ℚ) :
    zscore_flag amount history = true ↔
      5 ≤ history.length ∧ zscoreExceeds amount history := by
  by_cases h5 : history.length < 5
  · have hc : history = [] ∨ history.length < 5 := Or.inr h5
    rw [zscore_flag, if_pos hc]
    simp only [Bool.false_eq_true, false_iff, not_and]
    intro h
    omega
  · have h5' : 5 ≤ history.length := Nat.le_of_not_lt h5
    have hne : ¬(history = [] ∨ history.length < 5) := by
      push_neg
      refine ⟨?_, h5'⟩
      intro he
      subst he
      simp at h5
    rw [zscore_flag, if_neg hne]
    simp only [zscoreExceeds, h5', true_and]
    split
    · simp [*]
    · simp [*]

/-- The amount-anomaly flag is in the screener's flag list exactly when
the source's guard condition holds. -/
theorem amount_anomaly_mem (tx : Tx) (known : Option (List String))
    (policy : FraudPolicy) (hist : Option (List (String × List ℚ))) :
    "amount-anomaly" ∈ (simple_fraud_check tx known policy hist).2 ↔
      (mappingTruthy hist = true ∧
       pyStrip (tx.counterparty.getD "") ≠ "" ∧
       zscore_flag (tx.amount.getD 0)
         (historyFor hist (pyStrip (tx.counterparty.getD ""))) = true) := by
  have d1 : ¬(("amount-anomaly" : String) = "odd-hour") := by decide
  have d2 : ¬(("amount-anomaly" : String) = "unknown-counterparty") := by decide
  have d3 : ¬(("amount-anomaly" : String) = "large-amount") := by decide
  simp [simple_fraud_check, List.mem_append, mem_ite_singleton, d1, d2, d3]

/-- Claim C5 (amended): the amount-anomaly flag fires iff the
transaction's trimmed counterparty is non-empty, the history mapping
records at least 5 amounts for it, and the z-score condition holds with
the standard deviation replaced by 1.0 exactly when it is zero; with
fewer than 5 recorded amounts the flag never fires. -/
theorem amount_anomaly_iff (tx : Tx) (known : Option (List String))
    (policy : FraudPolicy) (hist : Option (List (String × List ℚ))) :
    ("amount-anomaly" ∈ (simple_fraud_check tx known policy hist).2 ↔
      (pyStrip (tx.counterparty.getD "") ≠ "" ∧
       5 ≤ (historyFor hist (pyStrip (tx.counterparty.getD ""))).length ∧
       zscoreExceeds (tx.amount.getD 0)
         (historyFor hist (pyStrip (tx.counterparty.getD ""))))) ∧
    ((historyFor hist (pyStrip (tx.counterparty.getD ""))).length < 5 →
      "amount-anomaly" ∉ (simple_fraud_check tx known policy hist).2) := by
  constructor
  · rw [amount_anomaly_mem]
    constructor
    · rintro ⟨_, hcp, hz⟩
      rcases (zscore_flag_iff _ _).mp hz with ⟨h5, he⟩
      exact ⟨hcp, h5, he⟩
    · rintro ⟨hcp, h5, he⟩
      have hne : historyFor hist (pyStrip (tx.counterparty.getD "")) ≠ [] := by
        intro h0
        rw [h0] at h5
        simp at h5
      exact ⟨historyFor_truthy hne, hcp, (zscore_flag_iff _ _).mpr ⟨h5, he⟩⟩
  · intro hlt hm
    rw [amount_anomaly_mem] at hm
    rcases hm with ⟨_, _, hz⟩
    rcases (zscore_flag_iff _ _).mp hz with ⟨h5, _⟩
    omega

/-- Witness for C5 (amended) at a transaction with no recorded history:
the flag does not fire. -/
theorem amount_anomaly_iff_witness :
    "amount-anomaly" ∉
      (simple_fraud_check ⟨some 7, some "Y", none, none⟩ none defaultPolicy none).2 :=
  (amount_anomaly_iff ⟨some 7, some "Y", none, none⟩ none defaultPolicy none).2
    (by decide)

/-- Counterexample for C5 as stated: with history `[0,0,0,0,1]` (five
points, variance 4/25, standard deviation 2/5) and amount `2`, the
code's screener fires the amount-anomaly flag (z = (9/5)/(2/5) = 4.5 >
3) while the claim's floored-at-1.0 standard deviation yields z = 9/5 ≤
3, i.e. no flag; and conversely for an empty trimmed counterparty with
five identical recorded amounts, the claim's formula fires (z = 100 >
3) while the code never flags. -/
theorem amount_anomaly_counterexample :
    ("amount-anomaly" ∈
        (simple_fraud_check ⟨some 2, some "X", none, none⟩ none defaultPolicy
          (some [("X", [0, 0, 0, 0, 1])])).2 ∧
      zscore_flag_floored 2 [0, 0, 0, 0, 1] = false) ∧
    (zscore_flag_floored 100 [0, 0, 0, 0, 0] = true ∧
      "amount-anomaly" ∉
        (simple_fraud_check ⟨some 100, some "", none, none⟩ none defaultPolicy
          (some [("", [0, 0, 0, 0, 0])])).2) := by
  refine ⟨⟨?_, ?_⟩, ?_, ?_⟩
  · rw [amount_anomaly_mem]
    refine ⟨rfl, by decide, ?_⟩
    show zscore_flag 2 ([0, 0, 0, 0, 1] : List ℚ) = true
    rw [zscore_flag, if_neg (by simp)]
    norm_num
  · rw [zscore_flag_floored, if_neg (by simp)]
    norm_num
    rw [abs_of_nonneg (by norm_num)]
    norm_num
  · rw [zscore_flag_floored, if_neg (by simp)]
    norm_num
  · rw [amount_anomaly_mem]
    rintro ⟨_, hcp, _⟩
    exact hcp (by decide)

/-- Claim C6 (amended): the unknown-counterparty flag fires iff a
known-counterparty set is supplied (possibly empty), the transaction's
trimmed counterparty is non-empty, and the counterparty is absent from
the set (case-sensitively). -/
theorem unknown_counterparty_iff (tx : Tx) (known : Option (List String))
    (policy : FraudPolicy) (hist : Option (List (String × List ℚ))) :
    "unknown-counterparty" ∈ (simple_fraud_check tx known policy hist).2 ↔
      (known ≠ none ∧ pyStrip (tx.counterparty.getD "") ≠ "" ∧
       pyStrip (tx.counterparty.getD "") ∉ known.getD []) := by
  have d1 : ¬(("unknown-counterparty" : String) = "odd-hour") := by decide
  have d3 : ¬(("unknown-counterparty" : String) = "large-amount") := by decide
  have d4 : ¬(("unknown-counterparty" : String) = "amount-anomaly") := by decide
  simp [simple_fraud_check, List.mem_append, mem_ite_singleton, d1, d3, d4]

/-- Counterexample for C6 as stated: with a supplied *empty*
known-counterparty set the code fires the flag for counterparty "X"
(the claim says an empty set never fires it); and with the non-empty
set containing only "A" and an empty trimmed counterparty the code does
not fire (the claim's absence test would fire). -/
theorem unknown_counterparty_counterexample :
    ("unknown-counterparty" ∈
        (simple_fraud_check ⟨some 1, some "X", none, none⟩ (some [])
          defaultPolicy none).2) ∧
    ("unknown-counterparty" ∉
        (simple_fraud_check ⟨some 1, some "", none, none⟩ (some ["A"])
          defaultPolicy none).2) := by
  decide

/-! ## Claim C2 : the price resolution chain -/

/-- Claim C2 (amended): `get_latest_price` attempts, in order and
short-circuiting on the first success, the cache for today's key, the
primary Alpha Vantage provider (only when a credential is configured,
with write-back on success), then the secondary yfinance provider
(intraday close first, then last daily close, with write-back on
success); when every attempt fails it returns `none` with the
secondary provider's failure tag ("yfinance:unavailable", or
"yfinance:error" when yfinance raised) — not the tag "unavailable" —
and, being a total function of the environment, never raises. -/
theorem get_latest_price_chain (env : PriceEnv) :
    (∀ p, env.cacheRead = .ok (some p) →
      get_latest_price env = ((some p, "cache:today"), [PriceCall.cache], [])) ∧
    (cacheMiss env → env.alphaKey ≠ "" → ∀ p, env.alphaPrice = some p →
      get_latest_price env =
        ((some p, "alpha_vantage"), [PriceCall.cache, PriceCall.alpha], [p])) ∧
    (cacheMiss env → (env.alphaKey = "" ∨ env.alphaPrice = none) →
      ((get_latest_price env).1 = latest_price_yf env ∧
       PriceCall.yf ∈ (get_latest_price env).2.1 ∧
       (∀ q, (latest_price_yf env).1 = some q →
          (get_latest_price env).2.2 = [q]))) ∧
    (env.yfRaises = false → ∀ p, env.yfIntraday = some p →
      latest_price_yf env = (some p, "yfinance (intraday)")) ∧
    (cacheMiss env → (env.alphaKey = "" ∨ env.alphaPrice = none) →
      env.yfIntraday = none → env.yfDaily = none →
      (get_latest_price env).1 =
        (none, if env.yfRaises then "yfinance:error" else "yfinance:unavailable")) := by
  have hyf_fail : env.yfIntraday = none → env.yfDaily = none →
      latest_price_yf env =
        (none, if env.yfRaises then "yfinance:error" else "yfinance:unavailable") := by
    intro h1 h2
    cases hr : env.yfRaises with
    | true => simp [latest_price_yf, hr]
    | false => simp [latest_price_yf, hr, h1, h2]
  have hmiss_shape : cacheMiss env →
      get_latest_price env =
        (if env.alphaKey ≠ "" then
          match env.alphaPrice with
          | some p => ((some p, "alpha_vantage"), [PriceCall.cache, PriceCall.alpha], [p])
          | none =>
            (((latest_price_yf env).1, (latest_price_yf env).2),
              [PriceCall.cache, PriceCall.alpha, PriceCall.yf],
              match (latest_price_yf env).1 with
              | some q => [q]
              | none => [])
        else
          (((latest_price_yf env).1, (latest_price_yf env).2),
            [PriceCall.cache, PriceCall.yf],
            match (latest_price_yf env).1 with
            | some q => [q]
            | none => [])) := by
    intro hmiss
    unfold get_latest_price
    cases hcr : env.cacheRead with
    | ok o =>
      cases o with
      | some p => exact absurd hcr (hmiss p)
      | none => rfl
    | error e => rfl
  refine ⟨?_, ?_, ?_, ?_, ?_⟩
  · intro p hp
    unfold get_latest_price
    rw [hp]
  · intro hmiss hkey p hp
    rw [hmiss_shape hmiss, if_pos hkey, hp]
  · intro hmiss hfail
    rw [hmiss_shape hmiss]
    by_cases hk : env.alphaKey = ""
    · rw [if_neg (by simpa using hk)]
      refine ⟨rfl, by simp, ?_⟩
      intro q hq
      simp [hq]
    · have hp : env.alphaPrice = none := hfail.resolve_left hk
      rw [if_pos (by simpa using hk), hp]
      refine ⟨rfl, by simp, ?_⟩
      intro q hq
      simp [hq]
  · intro hr p hp
    simp [latest_price_yf, hr, hp]
  · intro hmiss hfail h1 h2
    rw [hmiss_shape hmiss]
    by_cases hk : env.alphaKey = ""
    · rw [if_neg (by simpa using hk)]
      simp [hyf_fail h1 h2]
    · have hp : env.alphaPrice = none := hfail.resolve_left hk
      rw [if_pos (by simpa using hk), hp]
      simp [hyf_fail h1 h2]

/-- Witness for C2 (amended): a cache miss with a configured credential
and a successful primary quote returns the primary's price and tag,
never reaching yfinance, and writes the price back. -/
theorem get_latest_price_chain_witness :
    get_latest_price ⟨.ok none, "KEY", some 5, false, none, none⟩ =
      ((some 5, "alpha_vantage"), [PriceCall.cache, PriceCall.alpha], [5]) :=
  (get_latest_price_chain ⟨.ok none, "KEY", some 5, false, none, none⟩).2.1
    (by decide) (by decide) 5 rfl

/-- Counterexample for C2 as stated: when the cache misses, no
credential is configured and both yfinance frames are empty, the chain
returns `(none, "yfinance:unavailable")`, which differs from the
claim's `(None, "unavailable")`. -/
theorem get_latest_price_counterexample :
    (get_latest_price ⟨.ok none, "", none, false, none, none⟩).1 =
      ((none : Option ℚ), "yfinance:unavailable") ∧
    ((none : Option ℚ), "yfinance:unavailable") ≠ ((none : Option ℚ), "unavailable") := by
  constructor
  · rfl
  · decide

/-! ## Claim C4 : the allocation parser -/

theorem lookupQ_updAdd_self (m : List (String × ℚ)) (k : String) (w : ℚ) :
    lookupQ (updAdd m k w) k = lookupQ m k + w := by
  induction m with
  | nil => simp [updAdd, lookupQ]
  | cons a t ih =>
    obtain ⟨k', v⟩ := a
    by_cases h : k' = k
    · subst h
      simp [updAdd, lookupQ]
    · simp [updAdd, lookupQ, h, ih]

theorem lookupQ_updAdd_ne (m : List (String × ℚ)) (k' k : String) (w : ℚ)
    (h : k' ≠ k) : lookupQ (updAdd m k' w) k = lookupQ m k := by
  induction m with
  | nil => simp [updAdd, lookupQ, h]
  | cons a t ih =>
    obtain ⟨k2, v⟩ := a
    by_cases h2 : k2 = k'
    · subst h2
      simp [updAdd, lookupQ, h]
    · by_cases h3 : k2 = k
      · subst h3
        simp [updAdd, lookupQ, h2]
      · simp [updAdd, lookupQ, h2, h3, ih]

theorem sum_updAdd (m : List (String × ℚ)) (k : String) (w : ℚ) :
    ((updAdd m k w).map Prod.snd).sum = (m.map Prod.snd).sum + w := by
  induction m with
  | nil => simp [updAdd]
  | cons a t ih =>
    obtain ⟨k', v⟩ := a
    by_cases h : k' = k
    · subst h
      simp [updAdd]
      ring
    · simp [updAdd, h, ih]
      ring

theorem sum_foldl_allocStep (ps : List (ℚ × String)) :
    ∀ m : List (String × ℚ),
      ((ps.foldl allocStep m).map Prod.snd).sum =
        (m.map Prod.snd).sum +
          ((ps.filter (fun p => p.2 ≠ "")).map Prod.fst).sum := by
  induction ps with
  | nil => intro m; simp
  | cons p t ih =>
    intro m
    obtain ⟨w, c⟩ := p
    by_cases h : c = ""
    · subst h
      simp [allocStep, ih]
    · rw [List.foldl_cons,
        show allocStep m (w, c) = updAdd m c w by simp [allocStep, h]]
      rw [ih (updAdd m c w), sum_updAdd]
      simp [h]
      ring

theorem lookupQ_foldl_allocStep (k : String) (hk : k ≠ "") (ps : List (ℚ × String)) :
    ∀ m : List (String × ℚ),
      lookupQ (ps.foldl allocStep m) k =
        lookupQ m k + ((ps.filter (fun p => p.2 = k)).map Prod.fst).sum := by
  induction ps with
  | nil => intro m; simp
  | cons p t ih =>
    intro m
    obtain ⟨w, c⟩ := p
    by_cases h : c = k
    · subst h
      rw [List.foldl_cons,
        show allocStep m (w, c) = updAdd m c w by simp [allocStep, hk]]
      rw [ih (updAdd m c w), lookupQ_updAdd_self]
      simp
      ring
    · by_cases h0 : c = ""
      · subst h0
        rw [List.foldl_cons, show allocStep m (w, "") = m by simp [allocStep]]
        rw [ih m]
        simp [h]
      · rw [List.foldl_cons,
          show allocStep m (w, c) = updAdd m c w by simp [allocStep, h0]]
        rw [ih (updAdd m c w), lookupQ_updAdd_ne m c k w h]
        simp [h]

theorem sum_map_div (m : List (String × ℚ)) (t : ℚ) :
    ((m.map (fun kv => (kv.1, kv.2 / t))).map Prod.snd).sum =
      (m.map Prod.snd).sum / t := by
  induction m with
  | nil => simp
  | cons a l ih =>
    simp only [List.map_cons, List.sum_cons]
    rw [ih, add_div]

theorem lookupQ_map_div (m : List (String × ℚ)) (t : ℚ) (k : String) :
    lookupQ (m.map (fun kv => (kv.1, kv.2 / t))) k = lookupQ m k / t := by
  induction m with
  | nil => simp [lookupQ]
  | cons a l ih =>
    obtain ⟨k', v⟩ := a
    by_cases h : k' = k
    · simp [lookupQ, h]
    · simp [lookupQ, h, ih]

/-- Claim C4: the allocation parser maps
"50% NVDA, 30% TSLA, 20% bonds" (routed through the `_alloc_only`
pre-cleaner, which alias-resolves "bonds" to BND) to exactly
`{NVDA ↦ 0.5, TSLA ↦ 0.3, BND ↦ 0.2}`; and for every accepted input the
returned weights sum to exactly 1 and each symbol's weight is the sum
of all its scanned occurrences (duplicates accumulate) divided by the
total scanned weight. -/
theorem parse_percent_alloc_claim :
    (parse_percent_alloc (alloc_only "50% NVDA, 30% TSLA, 20% bonds") =
      .ok [("NVDA", 1/2), ("TSLA", 3/10), ("BND", 1/5)]) ∧
    (∀ (s : String) (m : List (String × ℚ)), parse_percent_alloc s = .ok m →
      ((m.map Prod.snd).sum = 1 ∧
       0 < totalWeight s ∧
       ∀ k, k ≠ "" → lookupQ m k = contribWeight s k / totalWeight s)) := by
  constructor
  · rw [show alloc_only "50% NVDA, 30% TSLA, 20% bonds" =
        "50% NVDA, 30% TSLA, 20% BND" from rfl]
    rw [parse_percent_alloc,
      show accumAlloc "50% NVDA, 30% TSLA, 20% BND" =
        [("NVDA", ((50 : Nat) : ℚ) / 100), ("TSLA", ((30 : Nat) : ℚ) / 100),
         ("BND", ((20 : Nat) : ℚ) / 100)] from rfl]
    norm_num [normalize_allocations]
  · intro s m hok
    simp only [parse_percent_alloc] at hok
    by_cases hemp : (accumAlloc s).isEmpty
    · rw [if_pos hemp] at hok
      exact absurd hok (by simp)
    · rw [if_neg hemp] at hok
      simp only [normalize_allocations] at hok
      by_cases hle : ((accumAlloc s).map Prod.snd).sum ≤ 0
      · rw [if_pos hle] at hok
        exact absurd hok (by simp)
      · rw [if_neg hle] at hok
        have hm : (accumAlloc s).map
            (fun kv => (kv.1, kv.2 / ((accumAlloc s).map Prod.snd).sum)) = m :=
          Except.ok.inj hok
        have htw : ((accumAlloc s).map Prod.snd).sum = totalWeight s := by
          unfold accumAlloc totalWeight
          rw [sum_foldl_allocStep (cleanedPairs s) []]
          simp
        have hpos : 0 < ((accumAlloc s).map Prod.snd).sum := lt_of_not_le hle
        refine ⟨?_, ?_, ?_⟩
        · rw [← hm, sum_map_div]
          exact div_self (ne_of_gt hpos)
        · rw [← htw]
          exact hpos
        · intro k hk
          rw [← hm, lookupQ_map_div, htw]
          congr 1
          unfold accumAlloc contribWeight
          rw [lookupQ_foldl_allocStep k hk (cleanedPairs s) []]
          simp [lookupQ]

/-- Witness for C4 at the example input, using the concrete parse as
the hypothesis of the universal part: duplicate-free lookups equal the
scanned contributions divided by the total, and the weights sum to 1. -/
theorem parse_percent_alloc_claim_witness :
    lookupQ [("NVDA", 1/2), ("TSLA", 3/10), ("BND", 1/5)] "NVDA" =
      contribWeight (alloc_only "50% NVDA, 30% TSLA, 20% bonds") "NVDA" /
        totalWeight (alloc_only "50% NVDA, 30% TSLA, 20% bonds") ∧
    (([("NVDA", (1 : ℚ)/2), ("TSLA", 3/10), ("BND", 1/5)].map Prod.snd).sum = 1) :=
  ⟨((parse_percent_alloc_claim.2 (alloc_only "50% NVDA, 30% TSLA, 20% bonds")
        [("NVDA", 1/2), ("TSLA", 3/10), ("BND", 1/5)]
        parse_percent_alloc_claim.1).2.2) "NVDA" (by decide),
   (parse_percent_alloc_claim.2 (alloc_only "50% NVDA, 30% TSLA, 20% bonds")
        [("NVDA", 1/2), ("TSLA", 3/10), ("BND", 1/5)]
        parse_percent_alloc_claim.1).1⟩

end Jagent
